import Mathlib

/-!
Verification of the white-label brand-selection core (clause parser and
resolver) as a shallow embedding of `src/lib.rs`.

The source is a Rust procedural macro.  Its two components are:

* the clause parser (`impl Parse for WLBrand / WLMatch / WLInput`), which
  turns the macro's token stream into a list of `pattern => literal` clauses;
* the resolver (`pub fn brand`), which reads the `WHITE_LABEL_BRAND`
  environment variable and scans the clauses in source order, returning the
  literal of the first matching clause, and panicking with the message
  `"WHITE_LABEL_BRAND must be set."` when the variable is absent or when no
  clause matches.

Embedding choices:

* `syn::Lit` is modelled as a tagged, otherwise opaque literal token `Lit`;
  integer and float literals are kept as their token text (the resolver
  never inspects literal content, mirroring `quote!(#literal)`).
* The macro's token stream is modelled as a `List Tok` over the token kinds
  the grammar mentions (`_`, `=>`, `,`, literal tokens, anything else).
* The environment read `env::var("WHITE_LABEL_BRAND")` is modelled as an
  `Option String` input (`some v` for `Ok(v)`, `none` for `Err(_)`).
* The compile-time `panic!` is modelled as an `Except.error` carrying the
  panic message, so resolution has type `Except String Lit`.
-/

namespace WhiteLabel

/-- Literal token (`syn::Lit` restricted to the kinds the crate documents and
tests: string, integer, boolean, float, character).  Integer and float
literals keep their raw token text: the core stores and re-emits the token
without parsing its numeric content. -/
inductive Lit where
  | Str (s : String)
  | Int (s : String)
  | Bool (b : Bool)
  | Float (s : String)
  | Char (c : Char)
deriving DecidableEq, Repr

/-- Pattern of a clause: `"foo"` or `_` (Rust `enum WLBrand`). -/
inductive WLBrand where
  | Named (s : String)
  | Wildcard
deriving DecidableEq, Repr

/-- One clause, `pattern => literal` (Rust `struct WLMatch`). -/
structure WLMatch where
  brand : WLBrand
  literal : Lit
deriving DecidableEq, Repr

/-- The parsed clause list (Rust `struct WLInput`).  The source field is
named `matches`, which is a Lean keyword, hence `wlMatches`. -/
structure WLInput where
  wlMatches : List WLMatch
deriving DecidableEq, Repr

/-- Token of the macro's input stream, as consumed by the `syn` parsers:
`_`, `=>`, `,`, a literal token, or any other token (which the grammar
rejects). -/
inductive Tok where
  | underscore
  | fatArrow
  | comma
  | lit (l : Lit)
  | other
deriving DecidableEq, Repr

/-- Parse error: `syn::Error` carries a span and a message; we record the
number of tokens remaining at the point of failure (positional context) and
the message. -/
structure ParseError where
  remaining : Nat
  msg : String
deriving DecidableEq, Repr

/-- Error message produced when the clause head fails to parse
(`WLBrand::parse`: not `_` and not a string literal). -/
def msgAfterBrand : List Tok → String
  | Tok.fatArrow :: _ => "expected literal"
  | _ => "expected =>"

/-- Message for a failed clause parse, mirroring which of the three steps of
`WLMatch::parse` (brand, `=>`, literal) failed first. -/
def msgFor : List Tok → String
  | [] => "unexpected end of input"
  | Tok.underscore :: rest => msgAfterBrand rest
  | Tok.lit (Lit.Str _) :: rest => msgAfterBrand rest
  | _ => "expected string literal"

/-- Build the `ParseError` for a failure at the given remaining tokens. -/
def syntaxError (toks : List Tok) : ParseError :=
  ⟨toks.length, msgFor toks⟩

/-- The loop of `WLInput::parse`: while the input is nonempty, parse one
`WLMatch` (`WLBrand`, then `=>`, then a literal), then consume one optional
comma.  Mirrors that the comma is consumed only when present, after every
clause. -/
def parseMatches : List Tok → Except ParseError (List WLMatch)
  | [] => Except.ok []
  | Tok.underscore :: Tok.fatArrow :: Tok.lit l :: Tok.comma :: rest =>
      (parseMatches rest).map fun ms => ⟨WLBrand.Wildcard, l⟩ :: ms
  | Tok.underscore :: Tok.fatArrow :: Tok.lit l :: rest =>
      (parseMatches rest).map fun ms => ⟨WLBrand.Wildcard, l⟩ :: ms
  | Tok.lit (Lit.Str s) :: Tok.fatArrow :: Tok.lit l :: Tok.comma :: rest =>
      (parseMatches rest).map fun ms => ⟨WLBrand.Named s, l⟩ :: ms
  | Tok.lit (Lit.Str s) :: Tok.fatArrow :: Tok.lit l :: rest =>
      (parseMatches rest).map fun ms => ⟨WLBrand.Named s, l⟩ :: ms
  | toks => Except.error (syntaxError toks)

/-- `WLInput::parse`: parse the whole token stream into a clause list. -/
def WLInput.parse (toks : List Tok) : Except ParseError WLInput :=
  (parseMatches toks).map WLInput.mk

/-- The scan loop of `pub fn brand`: first clause whose pattern matches wins;
`Named(s)` matches under the guard `s == env_value`, `Wildcard` matches
unconditionally, anything else continues. -/
def scanMatches (envValue : String) : List WLMatch → Option Lit
  | [] => none
  | m :: rest =>
    match m.brand with
    | WLBrand.Named s =>
        if s == envValue then some m.literal else scanMatches envValue rest
    | WLBrand.Wildcard => some m.literal

/-- The panic message of `pub fn brand`, raised both when the environment
variable is absent and when the scan exhausts the clause list. -/
def panicMessage : String := "WHITE_LABEL_BRAND must be set."

/-- `pub fn brand`: if `env::var("WHITE_LABEL_BRAND")` is `Ok`, scan the
clauses and return the first match's literal; in every other case (variable
absent, or scan exhausted) panic with `panicMessage`. -/
def brand (env : Option String) (input : WLInput) : Except String Lit :=
  match env with
  | some envValue =>
      match scanMatches envValue input.wlMatches with
      | some l => Except.ok l
      | none => Except.error panicMessage
  | none => Except.error panicMessage

/-- Spec-side matching predicate (§4.2): `Named s` matches iff `s` equals the
brand string exactly and case-sensitively, `Wildcard` matches always. -/
def brandMatches (envValue : String) : WLBrand → Bool
  | WLBrand.Named s => s == envValue
  | WLBrand.Wildcard => true

/-- Spec-side formulation of resolution (§4.2): the first clause in original
source order whose pattern matches. -/
def firstMatch (envValue : String) (ms : List WLMatch) : Option WLMatch :=
  ms.find? fun m => brandMatches envValue m.brand

theorem scanMatches_eq_firstMatch (envValue : String) (ms : List WLMatch) :
    scanMatches envValue ms = (firstMatch envValue ms).map WLMatch.literal := by
  induction ms with
  | nil => rfl
  | cons m rest ih =>
    rcases m with ⟨b, l⟩
    cases b with
    | Named s =>
      by_cases h : (s == envValue) = true
      · simp [scanMatches, firstMatch, brandMatches, h]
      · simp only [Bool.not_eq_true] at h
        simp [scanMatches, firstMatch, brandMatches, h] at ih ⊢
        exact ih
    | Wildcard => simp [scanMatches, firstMatch, brandMatches]

theorem brand_some_eq (env : String) (ms : List WLMatch) :
    brand (some env) ⟨ms⟩ =
      match firstMatch env ms with
      | some m => Except.ok m.literal
      | none => Except.error panicMessage := by
  rw [brand, scanMatches_eq_firstMatch]
  cases firstMatch env ms <;> rfl

/-- C1: with a configured brand, resolution returns the Value of the first
clause in original source order whose pattern matches, where `Named s`
matches iff `s` equals the brand string under exact, case-sensitive string
equality; in particular, for `[("A" => 1), ("B" => 2), ("A" => 3)]` with
brand `"A"` the result is `1`, not `3`, and with brand `"a"` (different
case) no clause matches. -/
theorem C1_first_match_wins :
    (∀ (env : String) (ms : List WLMatch),
      brand (some env) ⟨ms⟩ =
        match firstMatch env ms with
        | some m => Except.ok m.literal
        | none => Except.error panicMessage) ∧
    brand (some "A")
        ⟨[⟨WLBrand.Named "A", Lit.Int "1"⟩, ⟨WLBrand.Named "B", Lit.Int "2"⟩,
          ⟨WLBrand.Named "A", Lit.Int "3"⟩]⟩ = Except.ok (Lit.Int "1") ∧
    brand (some "a")
        ⟨[⟨WLBrand.Named "A", Lit.Int "1"⟩, ⟨WLBrand.Named "B", Lit.Int "2"⟩,
          ⟨WLBrand.Named "A", Lit.Int "3"⟩]⟩ = Except.error panicMessage :=
  ⟨brand_some_eq, by rfl, by rfl⟩

/-- C2: a Wildcard clause matches unconditionally and stops the scan at its
position: as long as no clause before the wildcard matches, resolution
returns the wildcard's Value regardless of the clauses after it (even if a
later Named clause's pattern equals the brand). -/
theorem C2_wildcard_short_circuit (pre post : List WLMatch) (l : Lit)
    (env : String) (h : ∀ m ∈ pre, brandMatches env m.brand = false) :
    brand (some env) ⟨pre ++ ⟨WLBrand.Wildcard, l⟩ :: post⟩ = Except.ok l := by
  rw [brand]
  have hscan : scanMatches env (pre ++ ⟨WLBrand.Wildcard, l⟩ :: post) = some l := by
    induction pre with
    | nil => rfl
    | cons m rest ih =>
      have hm : brandMatches env m.brand = false := h m (List.mem_cons_self m rest)
      have hrest : ∀ m' ∈ rest, brandMatches env m'.brand = false :=
        fun m' hm' => h m' (List.mem_cons_of_mem m hm')
      rcases m with ⟨b, l'⟩
      cases b with
      | Named s =>
        have hs : (s == env) = false := by simpa [brandMatches] using hm
        simpa [scanMatches, hs] using ih hrest
      | Wildcard => simp [brandMatches] at hm
  simp [hscan]

/-- C2 witness: for `[("A" => 1), (_ => 9), ("B" => 2)]` with brand `"B"`
the result is `9` (the wildcard's value), not `2`. -/
theorem C2_wildcard_short_circuit_witness :
    (∀ m ∈ [(⟨WLBrand.Named "A", Lit.Int "1"⟩ : WLMatch)],
        brandMatches "B" m.brand = false) ∧
    brand (some "B")
        ⟨[⟨WLBrand.Named "A", Lit.Int "1"⟩] ++
          ⟨WLBrand.Wildcard, Lit.Int "9"⟩ :: [⟨WLBrand.Named "B", Lit.Int "2"⟩]⟩ =
      Except.ok (Lit.Int "9") :=
  ⟨by decide,
   C2_wildcard_short_circuit [⟨WLBrand.Named "A", Lit.Int "1"⟩]
     [⟨WLBrand.Named "B", Lit.Int "2"⟩] (Lit.Int "9") "B" (by decide)⟩

/-- C3: with a configured brand, a clause list containing no Wildcard and no
Named pattern equal to the brand (including the empty list) makes resolution
fail fatally — the spec's NoMatch condition — producing an error, never a
Value. -/
theorem C3_no_match_fails (env : String) (ms : List WLMatch)
    (hw : ∀ m ∈ ms, m.brand ≠ WLBrand.Wildcard)
    (hn : ∀ m ∈ ms, m.brand ≠ WLBrand.Named env) :
    brand (some env) ⟨ms⟩ = Except.error panicMessage := by
  rw [brand]
  have hscan : scanMatches env ms = none := by
    induction ms with
    | nil => rfl
    | cons m rest ih =>
      have hw' : ∀ m' ∈ rest, m'.brand ≠ WLBrand.Wildcard :=
        fun m' hm' => hw m' (List.mem_cons_of_mem m hm')
      have hn' : ∀ m' ∈ rest, m'.brand ≠ WLBrand.Named env :=
        fun m' hm' => hn m' (List.mem_cons_of_mem m hm')
      rcases m with ⟨b, l⟩
      cases b with
      | Named s =>
        have hs : s ≠ env := by
          intro hc
          exact hn ⟨WLBrand.Named s, l⟩ (List.mem_cons_self _ _) (by simp [hc])
        have hs' : (s == env) = false := by simpa using hs
        simpa [scanMatches, hs'] using ih hw' hn'
      | Wildcard =>
        exact absurd rfl (hw ⟨WLBrand.Wildcard, l⟩ (List.mem_cons_self _ _))
  simp [hscan]

/-- C3 witness: `[("A" => 1), ("B" => 2)]` with brand `"C"` fails. -/
theorem C3_no_match_fails_witness :
    (∀ m ∈ [(⟨WLBrand.Named "A", Lit.Int "1"⟩ : WLMatch),
            ⟨WLBrand.Named "B", Lit.Int "2"⟩], m.brand ≠ WLBrand.Wildcard) ∧
    (∀ m ∈ [(⟨WLBrand.Named "A", Lit.Int "1"⟩ : WLMatch),
            ⟨WLBrand.Named "B", Lit.Int "2"⟩],
        m.brand ≠ WLBrand.Named "C") ∧
    brand (some "C")
        ⟨[⟨WLBrand.Named "A", Lit.Int "1"⟩, ⟨WLBrand.Named "B", Lit.Int "2"⟩]⟩ =
      Except.error panicMessage :=
  ⟨by decide, by decide,
   C3_no_match_fails "C"
     [⟨WLBrand.Named "A", Lit.Int "1"⟩, ⟨WLBrand.Named "B", Lit.Int "2"⟩]
     (by decide) (by decide)⟩

/-- C4: when no brand configuration value is supplied (the environment
variable is absent), resolution fails fatally regardless of the clause
contents — even for the single-wildcard list `[(_ => 1)]`. -/
theorem C4_missing_config_fails :
    (∀ input : WLInput, brand none input = Except.error panicMessage) ∧
    brand none ⟨[⟨WLBrand.Wildcard, Lit.Int "1"⟩]⟩ = Except.error panicMessage :=
  ⟨fun _ => rfl, rfl⟩

/-- C5: whenever resolution succeeds, the returned Value is exactly the
literal stored in the first matching clause, unchanged in kind and content
(the resolver never inspects or converts it); concretely, the parsed clause
`("X" => 3.14)` resolved for brand `"X"` yields the float token `3.14`,
still a float. -/
theorem C5_literal_preserved :
    (∀ (env : String) (ms : List WLMatch) (l : Lit),
      brand (some env) ⟨ms⟩ = Except.ok l →
        ∃ m, firstMatch env ms = some m ∧ m.literal = l) ∧
    WLInput.parse [Tok.lit (Lit.Str "X"), Tok.fatArrow, Tok.lit (Lit.Float "3.14")] =
      Except.ok ⟨[⟨WLBrand.Named "X", Lit.Float "3.14"⟩]⟩ ∧
    brand (some "X") ⟨[⟨WLBrand.Named "X", Lit.Float "3.14"⟩]⟩ =
      Except.ok (Lit.Float "3.14") := by
  refine ⟨fun env ms l h => ?_, by rfl, by rfl⟩
  rw [brand_some_eq] at h
  cases hf : firstMatch env ms with
  | none => rw [hf] at h; exact Except.noConfusion h
  | some m =>
    rw [hf] at h
    exact ⟨m, rfl, by injection h⟩

/-- C5 witness: instantiating the success property at the concrete clause
list `[("X" => 3.14)]` and brand `"X"`. -/
theorem C5_literal_preserved_witness :
    brand (some "X") ⟨[⟨WLBrand.Named "X", Lit.Float "3.14"⟩]⟩ =
      Except.ok (Lit.Float "3.14") ∧
    ∃ m, firstMatch "X" [⟨WLBrand.Named "X", Lit.Float "3.14"⟩] = some m ∧
      m.literal = Lit.Float "3.14" :=
  ⟨by rfl,
   C5_literal_preserved.1 "X" [⟨WLBrand.Named "X", Lit.Float "3.14"⟩]
     (Lit.Float "3.14") (by rfl)⟩

/-- C6 counterexample: the missing-configuration failure and the
unmatched-brand failure produce the identical error message
`"WHITE_LABEL_BRAND must be set."`, so the two outcomes are not reported
distinguishably from one another. -/
theorem C6_counterexample :
    brand none ⟨[⟨WLBrand.Wildcard, Lit.Int "1"⟩]⟩ =
      Except.error "WHITE_LABEL_BRAND must be set." ∧
    brand (some "C") ⟨[⟨WLBrand.Named "A", Lit.Int "1"⟩]⟩ =
      Except.error "WHITE_LABEL_BRAND must be set." :=
  ⟨rfl, rfl⟩

/-- C6 (amended): syntax errors are reported separately by the parser with
positional context, but every fatal failure of the resolver — missing
configuration and unmatched brand alike — carries the one message
`"WHITE_LABEL_BRAND must be set."`; the two resolution failures are not
distinguishable from one another by their report. -/
theorem C6_single_failure_message (env : Option String) (input : WLInput)
    (e : String) (h : brand env input = Except.error e) :
    e = panicMessage := by
  rcases env with _ | v
  · rw [brand] at h
    injection h with h'
    exact h'.symm
  · rw [brand] at h
    cases hs : scanMatches v input.wlMatches with
    | none =>
      rw [hs] at h
      injection h with h'
      exact h'.symm
    | some l =>
      rw [hs] at h
      exact Except.noConfusion h

/-- C6 witness: the unmatched-brand failure carries exactly the panic
message. -/
theorem C6_single_failure_message_witness :
    brand (some "C") ⟨[⟨WLBrand.Named "A", Lit.Int "1"⟩]⟩ =
      Except.error "WHITE_LABEL_BRAND must be set." ∧
    "WHITE_LABEL_BRAND must be set." = panicMessage :=
  ⟨rfl,
   C6_single_failure_message (some "C") ⟨[⟨WLBrand.Named "A", Lit.Int "1"⟩]⟩
     "WHITE_LABEL_BRAND must be set." rfl⟩

/-- C10: an empty-string brand configuration counts as configured, not
missing: with the variable set to `""` resolution proceeds to scan the
clauses normally, so a Wildcard clause matches and a `Named ""` clause
matches; the missing-configuration outcome arises only when the variable
yields no value at all (`env = none`). -/
theorem C10_empty_brand_configured :
    (∀ (ms : List WLMatch),
      brand (some "") ⟨ms⟩ =
        match firstMatch "" ms with
        | some m => Except.ok m.literal
        | none => Except.error panicMessage) ∧
    (∀ (l : Lit) (rest : List WLMatch),
      brand (some "") ⟨⟨WLBrand.Wildcard, l⟩ :: rest⟩ = Except.ok l) ∧
    (∀ (l : Lit) (rest : List WLMatch),
      brand (some "") ⟨⟨WLBrand.Named "", l⟩ :: rest⟩ = Except.ok l) :=
  ⟨fun ms => brand_some_eq "" ms, fun _ _ => rfl, fun _ _ => rfl⟩

/-- Token rendering of a pattern, inverse to the head of a clause parse. -/
def brandToks : WLBrand → List Tok
  | WLBrand.Named s => [Tok.lit (Lit.Str s)]
  | WLBrand.Wildcard => [Tok.underscore]

/-- Token rendering of one clause, `pattern => literal`. -/
def clauseToks (m : WLMatch) : List Tok :=
  brandToks m.brand ++ [Tok.fatArrow, Tok.lit m.literal]

/-- Token rendering of a clause list, comma-separated, with a trailing comma
after the final clause iff `trailing` is true. -/
def renderClauses (trailing : Bool) : List WLMatch → List Tok
  | [] => []
  | [m] => clauseToks m ++ (if trailing then [Tok.comma] else [])
  | m :: m2 :: ms => clauseToks m ++ Tok.comma :: renderClauses trailing (m2 :: ms)

theorem parse_render (trailing : Bool) (ms : List WLMatch) :
    parseMatches (renderClauses trailing ms) = Except.ok ms := by
  induction ms with
  | nil => rfl
  | cons m rest ih =>
    cases rest with
    | nil =>
      rcases m with ⟨b, l⟩
      cases b <;> cases trailing <;> rfl
    | cons m2 rest2 =>
      rcases m with ⟨b, l⟩
      cases b <;>
        simp [renderClauses, clauseToks, brandToks, parseMatches, ih, Except.map]

/-- C7 counterexample: the input `"A" => 1 "B" => 2`, two clauses with no
separator between them, parses successfully to a two-clause ClauseList
instead of failing with a syntax error. -/
theorem C7_counterexample :
    WLInput.parse
        [Tok.lit (Lit.Str "A"), Tok.fatArrow, Tok.lit (Lit.Int "1"),
         Tok.lit (Lit.Str "B"), Tok.fatArrow, Tok.lit (Lit.Int "2")] =
      Except.ok ⟨[⟨WLBrand.Named "A", Lit.Int "1"⟩,
                  ⟨WLBrand.Named "B", Lit.Int "2"⟩]⟩ :=
  rfl

/-- C7 (amended): the separator between clauses is optional, not required:
any two well-formed clauses written adjacently with no separator parse
successfully to the two-clause ClauseList in order. -/
theorem C7_amended_separator_optional (b1 b2 : WLBrand) (l1 l2 : Lit) :
    WLInput.parse (clauseToks ⟨b1, l1⟩ ++ clauseToks ⟨b2, l2⟩) =
      Except.ok ⟨[⟨b1, l1⟩, ⟨b2, l2⟩]⟩ := by
  cases b1 <;> cases b2 <;> rfl

/-- C8: a clause list rendered with a trailing separator after the final
clause and the same list rendered without it both parse successfully, to
identical ClauseLists (same clauses, same order). -/
theorem C8_trailing_separator (ms : List WLMatch) :
    WLInput.parse (renderClauses true ms) = Except.ok ⟨ms⟩ ∧
    WLInput.parse (renderClauses false ms) = Except.ok ⟨ms⟩ := by
  constructor <;> (rw [WLInput.parse, parse_render]; rfl)

/-- Boolean test for the wildcard pattern. -/
def isWildcard : WLBrand → Bool
  | WLBrand.Wildcard => true
  | WLBrand.Named _ => false

/-- Number of wildcard clauses in a clause list. -/
def countWildcards (ms : List WLMatch) : Nat :=
  (ms.filter fun m => isWildcard m.brand).length

/-- C9 counterexample: the input `_ => 1, _ => 2`, containing two wildcard
clauses, parses successfully to a ClauseList with two Wildcard clauses. -/
theorem C9_counterexample :
    WLInput.parse
        [Tok.underscore, Tok.fatArrow, Tok.lit (Lit.Int "1"), Tok.comma,
         Tok.underscore, Tok.fatArrow, Tok.lit (Lit.Int "2")] =
      Except.ok ⟨[⟨WLBrand.Wildcard, Lit.Int "1"⟩,
                  ⟨WLBrand.Wildcard, Lit.Int "2"⟩]⟩ :=
  rfl

/-- C9 (amended): the parser performs no wildcard-count validation: a clause
list containing two or more Wildcard clauses still parses successfully, with
every wildcard clause retained (clauses after the first wildcard are merely
unreachable at resolution time). -/
theorem C9_amended_no_wildcard_validation (ms : List WLMatch)
    (_h : 2 ≤ countWildcards ms) :
    WLInput.parse (renderClauses false ms) = Except.ok ⟨ms⟩ := by
  rw [WLInput.parse, parse_render]
  rfl

/-- C9 witness: the amended statement at a concrete two-wildcard list. -/
theorem C9_amended_no_wildcard_validation_witness :
    2 ≤ countWildcards [⟨WLBrand.Wildcard, Lit.Int "1"⟩,
                        ⟨WLBrand.Wildcard, Lit.Int "2"⟩] ∧
    WLInput.parse (renderClauses false
        [⟨WLBrand.Wildcard, Lit.Int "1"⟩, ⟨WLBrand.Wildcard, Lit.Int "2"⟩]) =
      Except.ok ⟨[⟨WLBrand.Wildcard, Lit.Int "1"⟩,
                  ⟨WLBrand.Wildcard, Lit.Int "2"⟩]⟩ :=
  ⟨by decide,
   C9_amended_no_wildcard_validation
     [⟨WLBrand.Wildcard, Lit.Int "1"⟩, ⟨WLBrand.Wildcard, Lit.Int "2"⟩]
     (by decide)⟩

end WhiteLabel
